import Mathlib

/-!
Shallow embedding of `src/reconciliation.py` (reconciliation engine).

Conventions used throughout:
* Cell values are modelled as `String` (pandas reads cells and the code
  immediately applies `astype(str)` before every operation we model).
* Missing values (`pd.NA` / `NaN`) are modelled with `Option`: `none` is the
  missing value.  Amounts are modelled as `ℚ` (exact rationals standing for
  the float64 values the code manipulates).
* The regular-expression character class `\d` is modelled by `Char.isDigit`
  (the inputs of interest are ASCII), `str.strip` by `trimStr` and
  `str.lower` by mapping `Char.toLower` over the characters.
-/

namespace Reconciliation

/-- Decimal-digit test, modelling the regex class `\d` used in the
extraction patterns of `reconciliation.py`. -/
def isDigitChar (c : Char) : Bool := c.isDigit

/-- Whitespace as stripped by Python `str.strip()` (ASCII range): space,
tab, newline, carriage return, vertical tab and form feed. -/
def isSpaceChar (c : Char) : Bool :=
  c = ' ' || c = '\t' || c = '\n' || c = '\r' || c = '\x0b' || c = '\x0c'

/-- Strip of leading and trailing whitespace, modelling `str.strip()`. -/
def trimStr (s : String) : String :=
  ⟨(((s.data.dropWhile isSpaceChar).reverse).dropWhile isSpaceChar).reverse⟩

/-- Test for a string of exactly 11 decimal digits, modelling the regex
`^\d{11}$` used by `str.match` in `reconcile` (lines 219-228) and in
`process_settlement` (line 158). -/
def is11Digits (s : String) : Bool :=
  s.data.length == 11 && s.data.all isDigitChar

/-- Take exactly `n` leading characters provided they are all digits;
`none` when fewer than `n` digit characters are available at this position. -/
def takeDigitRun : Nat → List Char → Option (List Char)
  | 0, _ => some []
  | _ + 1, [] => none
  | n + 1, c :: cs =>
    if isDigitChar c then (takeDigitRun n cs).map (fun ds => c :: ds) else none

/-- Match, at the current position, an 11-digit run: the body of the
pattern `(\d{11})`. -/
def match11At (cs : List Char) : Option (List Char) := takeDigitRun 11 cs

/-- Match, at the current position, the literal `XXP` followed by exactly
8 digits, returning the 8 digits: the pattern `XXP(\d{8})` of
`process_statement` step 2 (line 68). -/
def matchXXPAt : List Char → Option (List Char)
  | 'X' :: 'X' :: 'P' :: rest => takeDigitRun 8 rest
  | _ => none

/-- Match, at the current position, `777` followed by 8 digits, returning
all 11 characters: the pattern `(777\d{8})` of `process_statement` step 3
(line 75). -/
def match777At : List Char → Option (List Char)
  | '7' :: '7' :: '7' :: rest =>
    (takeDigitRun 8 rest).map (fun ds => '7' :: '7' :: '7' :: ds)
  | _ => none

/-- Leftmost-match search: `re.search` tries the pattern at every position
from the left and returns the first success. -/
def scanFirst (f : List Char → Option (List Char)) : List Char → Option (List Char)
  | [] => f []
  | c :: cs =>
    match f (c :: cs) with
    | some r => some r
    | none => scanFirst f cs

/-- Extraction with the end-anchored pattern `(\d{11})$`: succeeds exactly
when the string has at least 11 characters and its last 11 characters are
all digits (the unique position where a `\d{11}` match can end at the end
of the text). -/
def extractEnd11 (s : String) : Option String :=
  let cs := s.data
  let tail11 := cs.drop (cs.length - 11)
  if 11 ≤ cs.length ∧ tail11.all isDigitChar = true then some ⟨tail11⟩ else none

/-- Extraction with the pattern `XXP(\d{8})` anywhere in the text,
returning the captured 8 digits. -/
def extractXXP (s : String) : Option String :=
  (scanFirst matchXXPAt s.data).map String.mk

/-- Extraction with the pattern `(777\d{8})` anywhere in the text. -/
def extract777 (s : String) : Option String :=
  (scanFirst match777At s.data).map String.mk

/-- Extraction with the unanchored pattern `(\d{11})`. -/
def extractAny11 (s : String) : Option String :=
  (scanFirst match11At s.data).map String.mk

/-- Statement-side PartnerPin extraction, `process_statement` lines 57-85.
The pandas code runs four masked extraction passes over the stripped
description column, each pass only filling rows still missing a value;
per row this is exactly the following ordered fallback chain.  (A step-1
result is never the literal string `"nan"`, so the `missing_mask` of the
code coincides with the failure of the previous steps.) -/
def extractStatementPin (desc : String) : Option String :=
  let d := trimStr desc
  match extractEnd11 d with
  | some p => some p
  | none =>
    match extractXXP d with
    | some ds => some ("777" ++ ds)
    | none =>
      match extract777 d with
      | some p => some p
      | none => extractAny11 d

/-- Settlement-side PartnerPin extraction, `process_settlement` lines
146-170 (the string-column branch): first a direct `^\d{11}$` match on the
stripped cell, then the end-anchored extraction, then the unanchored one.
(The numeric-dtype branch of line 151-153 only converts a numeric cell to
its digit string, which the direct match then accepts.) -/
def extractSettlementPin (cell : String) : Option String :=
  let s := trimStr cell
  if is11Digits s then some s
  else
    match extractEnd11 s with
    | some p => some p
    | none => extractAny11 s

/-- Value of a digit run as a natural number. -/
def digitsVal (cs : List Char) : Nat :=
  cs.foldl (fun n c => 10 * n + (c.toNat - '0'.toNat)) 0

/-- Value of a fractional digit run. -/
def fracVal (cs : List Char) : ℚ :=
  (digitsVal cs : ℚ) / ((10 : ℚ) ^ cs.length)

/-- Parse an unsigned float literal made of digits and at most one dot,
mirroring what Python `float()` accepts among strings built from digits,
dots and minus signs: `\d+`, `\d+.\d*` or `.\d+`. -/
def parseUnsigned (cs : List Char) : Option ℚ :=
  let intPart := cs.takeWhile isDigitChar
  let rest := cs.dropWhile isDigitChar
  match rest with
  | [] => if intPart.isEmpty then none else some (digitsVal intPart : ℚ)
  | '.' :: fracPart =>
    if fracPart.all isDigitChar ∧ ¬(intPart.isEmpty ∧ fracPart.isEmpty) then
      some ((digitsVal intPart : ℚ) + fracVal fracPart)
    else none
  | _ => none

/-- Parse an optionally negated float literal. -/
def parseFloatLit (cs : List Char) : Option ℚ :=
  match cs with
  | '-' :: rest => (parseUnsigned rest).map Neg.neg
  | _ => parseUnsigned cs

/-- Numeric normalizer `_to_number` (lines 36-40): keep only digits, dots
and minus signs, turn an empty residue into a missing value, and parse the
rest as a float (`errors="coerce"`: unparsable residues become missing). -/
def toNumber (cell : String) : Option ℚ :=
  let cleaned := cell.data.filter (fun c => isDigitChar c || c == '.' || c == '-')
  if cleaned.isEmpty then none else parseFloatLit cleaned

/-- Lowercasing of a string, modelling `str.lower` (ASCII range). -/
def lowerStr (s : String) : String := ⟨s.data.map Char.toLower⟩

/-- A normalized row as produced by either preparer and consumed by
`reconcile`: the columns PartnerPin, AmountUSD, ReconcileStatus.  Rows of
the prepared frames always carry an actual pin string (rows with a missing
pin are dropped by the preparers before they return). -/
structure PrepRow where
  pin : String
  amount : Option ℚ
  status : String
deriving Repr, DecidableEq

/-- A raw statement data row (after the preamble rows are discarded and the
header promoted), restricted to the physical columns `process_statement`
reads: the 2nd physical column (index 1, the action tag), the 4th physical
column (index 3, the free-text description) and the cell of the resolved
settle-amount column. -/
structure StmtRaw where
  action : String
  desc : String
  amountCell : String
deriving Repr, DecidableEq

/-- A raw settlement data row restricted to the physical columns
`process_settlement` reads: the 4th physical column (index 3, the
identifier cell), the 6th physical column (index 5, the status cell) and
the cells of the resolved payout and rate columns. -/
structure SettRaw where
  pinCell : String
  statusCell : String
  payoutCell : String
  rateCell : String
deriving Repr, DecidableEq

/-- Dollar-received test of `process_statement` line 103:
`astype(str).str.lower().str.strip() == "dollar received"`. -/
def isDollarReceived (r : StmtRaw) : Bool :=
  trimStr (lowerStr r.action) == "dollar received"

/-- Cancel test of `process_statement` line 108 (lowered and stripped). -/
def isCancelStmt (r : StmtRaw) : Bool :=
  trimStr (lowerStr r.action) == "cancel"

/-- Cancel test of `process_settlement` line 195: the 6th physical column
lowered but NOT stripped (`astype(str).str.lower() == "cancel"`). -/
def isCancelSett (r : SettRaw) : Bool :=
  lowerStr r.statusCell == "cancel"

/-- The extracted pins of the statement rows, in source order (the valid
pins of the pandas code: extraction never yields `""` or `"nan"`). -/
def statementPins (rows : List StmtRaw) : List String :=
  rows.filterMap (fun r => extractStatementPin r.desc)

/-- Statement-side duplicate pins, `process_statement` line 93: the pins
occurring more than once among rows with a valid pin. -/
def statementDupPins (rows : List StmtRaw) : List String :=
  (statementPins rows).filter (fun p => 2 ≤ (statementPins rows).count p)

/-- Eligibility tag of one statement row, `process_statement` lines
99-117: default Should Not Reconcile; rows lacking a valid pin keep the
default (all assigning masks require `valid_pins`); a dollar-received row
keeps the default (both assigning masks exclude it); otherwise a
cancel-tagged row with a duplicated pin, or any row with a non-duplicated
pin, becomes Should Reconcile. -/
def statementStatus (dup : List String) (r : StmtRaw) (pin : Option String) : String :=
  match pin with
  | none => "Should Not Reconcile"
  | some p =>
    if isDollarReceived r then "Should Not Reconcile"
    else if p ∈ dup then
      (if isCancelStmt r then "Should Reconcile" else "Should Not Reconcile")
    else "Should Reconcile"

/-- Statement preparer `process_statement` (lines 45-129), starting from
the raw data rows: extract the pin from the description, tag eligibility
against the global duplicate set, resolve the amount with the numeric
normalizer, and keep only rows with a valid pin (in source order). -/
def process_statement (rows : List StmtRaw) : List PrepRow :=
  let dup := statementDupPins rows
  rows.filterMap fun r =>
    (extractStatementPin r.desc).map fun p =>
      { pin := p, amount := toNumber r.amountCell, status := statementStatus dup r (some p) }

/-- The extracted pins of the settlement rows, in source order.  The
pandas code also counts repeated missing pins as duplicates of each other,
but rows with a missing pin are dropped before `process_settlement`
returns, and missing pins never influence the duplicate status of an
actual pin string, so only the extracted pins matter. -/
def settlementPins (rows : List SettRaw) : List String :=
  rows.filterMap (fun r => extractSettlementPin r.pinCell)

/-- Settlement-side duplicate pins, `process_settlement` line 187. -/
def settlementDupPins (rows : List SettRaw) : List String :=
  (settlementPins rows).filter (fun p => 2 ≤ (settlementPins rows).count p)

/-- AmountUSD of a settlement row, `process_settlement` lines 177-184:
`payout / rate` after the rate has its zeros replaced by missing values,
so a missing or zero rate (and a missing payout) yields a missing amount
and the division only ever happens against a nonzero rate. -/
def settAmount (payoutCell rateCell : String) : Option ℚ :=
  match toNumber payoutCell, toNumber rateCell with
  | some p, some rt => if rt = 0 then none else some (p / rt)
  | _, _ => none

/-- Eligibility tag of one settlement row with pin `p`,
`process_settlement` lines 190-201: default Should Not Reconcile; a
cancel-tagged row with a duplicated pin becomes Should Reconcile; then
every row with a non-duplicated pin becomes Should Reconcile
unconditionally. -/
def settlementStatus (dup : List String) (r : SettRaw) (p : String) : String :=
  if p ∈ dup then
    (if isCancelSett r then "Should Reconcile" else "Should Not Reconcile")
  else "Should Reconcile"

/-- Settlement preparer `process_settlement` (lines 135-203), starting
from the raw data rows; rows with no resolvable pin are dropped
(`dropna(subset=["PartnerPin"])`). -/
def process_settlement (rows : List SettRaw) : List PrepRow :=
  let dup := settlementDupPins rows
  rows.filterMap fun r =>
    (extractSettlementPin r.pinCell).map fun p =>
      { pin := p, amount := settAmount r.payoutCell r.rateCell,
        status := settlementStatus dup r p }

/-- Boolean lexicographic (codepoint) comparison of character lists,
modelling the comparison Python applies to `str` join keys. -/
def charListLe : List Char → List Char → Bool
  | [], _ => true
  | _ :: _, [] => false
  | a :: as, b :: bs => if a = b then charListLe as bs else decide (a < b)

/-- Lexicographic (codepoint) order on strings, used to model the
lexicographic sorting of join keys that `pd.merge(..., how="outer")`
performs (pandas documents the outer join as sorting the keys
lexicographically in the result). -/
def pinLe (s t : String) : Bool := charListLe s.data t.data

/-- Order predicate form of `pinLe`, the relation the outer join sorts by. -/
def PinLe (s t : String) : Prop := pinLe s t = true

instance : DecidableRel PinLe := fun s t => by
  unfold PinLe; infer_instance

/-- Eligibility filter plus pin re-validation of `reconcile`, lines
210-228: keep the Should Reconcile rows, strip the pin, and keep only pins
that are neither `"nan"` nor empty and match `^\d{11}$` after stripping. -/
def eligibleValid (rows : List PrepRow) : List PrepRow :=
  ((rows.filter (fun r => r.status == "Should Reconcile")).map
      (fun r => { r with pin := trimStr r.pin })).filter
    (fun r => r.pin != "nan" && r.pin != "" && is11Digits r.pin)

/-- Deduplication keeping the first occurrence per pin
(`drop_duplicates("PartnerPin", keep="first")`, lines 230-231), written
with an accumulator of pins already seen. -/
def dedupKeepFirstAux (seen : List String) : List PrepRow → List PrepRow
  | [] => []
  | r :: rs =>
    if r.pin ∈ seen then dedupKeepFirstAux seen rs
    else r :: dedupKeepFirstAux (r.pin :: seen) rs

/-- Deduplication by pin keeping first occurrences, in source order. -/
def dedupKeepFirst (rows : List PrepRow) : List PrepRow :=
  dedupKeepFirstAux [] rows

/-- The whole pre-join pipeline applied by `reconcile` to each input frame
(filter to Should Reconcile, strip and re-validate the pin, deduplicate). -/
def prefilter (rows : List PrepRow) : List PrepRow :=
  dedupKeepFirst (eligibleValid rows)

/-- Provenance marker of the outer join (`indicator=True`, the `_merge`
column): present in both frames, left (settlement) only, or right
(statement) only. -/
inductive Prov where
  | both
  | leftOnly
  | rightOnly
deriving Repr, DecidableEq

/-- One row of the merged frame produced by `pd.merge` in `reconcile`
(lines 233-240): the join key, the carried `AmountUSD_settlement` and
`AmountUSD_statement` values (missing when the side is absent or its
amount was missing — both are `NaN` in the float columns of the merged
frame) and the provenance marker. -/
structure Merged where
  pin : String
  settAmt : Option ℚ
  stmtAmt : Option ℚ
  prov : Prov
deriving Repr, DecidableEq

/-- Amount carried into the merged frame for pin `p` from one prepared
side: the amount of the (unique, post-deduplication) row with that pin,
missing when the pin is absent from the side or its amount is missing. -/
def amountLookup (p : String) (rows : List PrepRow) : Option ℚ :=
  (rows.find? (fun r => r.pin == p)).bind (fun r => r.amount)

/-- Union of the join keys of the two prefiltered frames, before sorting:
every settlement-side pin followed by the statement-only pins (each side is
already deduplicated, so each pin occurs at most once per side). -/
def joinPins (stmt sett : List PrepRow) : List String :=
  let settPins := (prefilter sett).map (fun r => r.pin)
  let stmtPins := (prefilter stmt).map (fun r => r.pin)
  settPins ++ stmtPins.filter (fun p => decide (p ∉ settPins))

/-- The merged-frame row for join key `p`: carried amounts from each side
and the provenance marker determined by which sides contain `p`. -/
def buildMerged (stmt sett : List PrepRow) (p : String) : Merged :=
  let settPins := (prefilter sett).map (fun r => r.pin)
  let stmtPins := (prefilter stmt).map (fun r => r.pin)
  { pin := p,
    settAmt := amountLookup p (prefilter sett),
    stmtAmt := amountLookup p (prefilter stmt),
    prov :=
      if p ∈ settPins then (if p ∈ stmtPins then Prov.both else Prov.leftOnly)
      else Prov.rightOnly }

/-- The merged frame of `reconcile`: a full outer join on PartnerPin of
the prefiltered settlement (left) and statement (right) frames.  The union
of keys is emitted sorted lexicographically, which is how
`pd.merge(..., how="outer")` orders its result rows (the pandas `merge`
documentation: outer joins sort the keys lexicographically). -/
def mergedRows (stmt sett : List PrepRow) : List Merged :=
  (List.insertionSort PinLe (joinPins stmt sett)).map (buildMerged stmt sett)

/-- Classification strings of `reconcile` lines 242-249, mapped from the
provenance marker. -/
def classOf : Prov → String
  | Prov.both => "Present in Both"
  | Prov.leftOnly => "Present in the Settlement File but not in the Partner Statement File"
  | Prov.rightOnly => "Not Present in the Settlement File but are present in the Statement File"

/-- Round to the nearest integer, ties to even: the rounding mode of
`Series.round` (IEEE 754 / numpy half-even rounding). -/
def nearestHalfEven (x : ℚ) : ℤ :=
  let f := ⌊x⌋
  let r := x - (f : ℚ)
  if r < 1 / 2 then f
  else if 1 / 2 < r then f + 1
  else if f % 2 = 0 then f else f + 1

/-- Rounding to 6 decimal places (`.round(6)`, line 267). -/
def round6 (x : ℚ) : ℚ := (nearestHalfEven (x * 1000000) : ℚ) / 1000000

/-- Normalization of tiny displayed variances, line 269: magnitudes below
5e-7 are replaced by exactly 0 (`mask(_var_display.abs() < 0.0000005, 0.0)`). -/
def snapTiny (x : ℚ) : ℚ := if |x| < 1 / 2000000 then 0 else x

/-- AmountVariance column of the final report, lines 252-270: defined only
for rows present in both frames with both amounts available; the raw
variance settlement minus statement is rounded to 6 decimals and tiny
magnitudes are snapped to 0. -/
def varianceOf (m : Merged) : Option ℚ :=
  match m.prov with
  | Prov.both =>
    match m.settAmt, m.stmtAmt with
    | some a, some b => some (snapTiny (round6 (a - b)))
    | _, _ => none
  | _ => none

/-- FinalReconcileStatus column, lines 263-283: rows present in both
frames default to Amount Mismatch and become Reconciled exactly when the
absolute unrounded variance is within the 0.01 tolerance (a missing
variance never satisfies the comparison); left-only rows are Missing in
Statement, right-only rows Missing in Settlement. -/
def finalStatusOf (m : Merged) : String :=
  match m.prov with
  | Prov.both =>
    match m.settAmt, m.stmtAmt with
    | some a, some b =>
      if |a - b| ≤ 1 / 100 then "Reconciled" else "Amount Mismatch"
    | _, _ => "Amount Mismatch"
  | Prov.leftOnly => "Missing in Statement"
  | Prov.rightOnly => "Missing in Settlement"

/-- One row of the final report: the four retained columns (line 296). -/
structure ReportRow where
  pin : String
  classification : String
  finalStatus : String
  amountVariance : Option ℚ
deriving Repr, DecidableEq

/-- Assembly of one report row from one merged row. -/
def finalize (m : Merged) : ReportRow :=
  { pin := m.pin, classification := classOf m.prov,
    finalStatus := finalStatusOf m, amountVariance := varianceOf m }

/-- The classification safety filter of lines 285-294. -/
def validClassifications : List String :=
  ["Present in Both",
   "Present in the Settlement File but not in the Partner Statement File",
   "Not Present in the Settlement File but are present in the Statement File"]

/-- The reconciliation engine `reconcile` (lines 209-298): prefilter both
frames, outer-join them on PartnerPin, classify, compute the variance and
final status per row, and keep the rows whose classification is one of the
three expected values. -/
def reconcile (stmt sett : List PrepRow) : List ReportRow :=
  ((mergedRows stmt sett).map finalize).filter
    (fun row => validClassifications.contains row.classification)

/-! Helper lemmas about the embedding. -/

theorem charListLe_total : ∀ as bs : List Char, charListLe as bs = true ∨ charListLe bs as = true
  | [], _ => Or.inl rfl
  | _ :: _, [] => Or.inr rfl
  | a :: as, b :: bs => by
    by_cases hab : a = b
    · subst hab
      simp only [charListLe, if_pos rfl]
      exact charListLe_total as bs
    · rcases lt_or_gt_of_ne hab with h | h
      · left; simp [charListLe, hab, h]
      · right; simp [charListLe, Ne.symm hab, h]

theorem charListLe_trans : ∀ as bs cs : List Char,
    charListLe as bs = true → charListLe bs cs = true → charListLe as cs = true
  | [], _, _, _, _ => rfl
  | _ :: _, [], _, h, _ => by simp [charListLe] at h
  | _ :: _, _ :: _, [], _, h => by simp [charListLe] at h
  | a :: as, b :: bs, c :: cs, h1, h2 => by
    by_cases hab : a = b <;> by_cases hbc : b = c
    · subst hab; subst hbc
      simp only [charListLe, if_pos rfl] at h1 h2 ⊢
      exact charListLe_trans as bs cs h1 h2
    · subst hab
      simp only [charListLe, if_neg hbc, decide_eq_true_eq] at h2
      simp [charListLe, hbc, h2]
    · subst hbc
      simp only [charListLe, if_neg hab, decide_eq_true_eq] at h1
      simp [charListLe, hab, h1]
    · simp only [charListLe, if_neg hab, if_neg hbc, decide_eq_true_eq] at h1 h2
      have hac : a < c := lt_trans h1 h2
      simp [charListLe, ne_of_lt hac, hac]

instance : IsTotal String PinLe :=
  ⟨fun s t => charListLe_total s.data t.data⟩

instance : IsTrans String PinLe :=
  ⟨fun s t u => charListLe_trans s.data t.data u.data⟩

theorem mem_of_mem_dedupAux : ∀ (seen : List String) (l : List PrepRow) (r : PrepRow),
    r ∈ dedupKeepFirstAux seen l → r ∈ l
  | _, [], r, h => absurd h (List.not_mem_nil r)
  | seen, x :: xs, r, h => by
    by_cases hx : x.pin ∈ seen
    · rw [dedupKeepFirstAux, if_pos hx] at h
      exact List.mem_cons_of_mem x (mem_of_mem_dedupAux seen xs r h)
    · rw [dedupKeepFirstAux, if_neg hx] at h
      rcases List.mem_cons.mp h with h | h
      · exact h ▸ List.mem_cons_self x xs
      · exact List.mem_cons_of_mem x (mem_of_mem_dedupAux _ xs r h)

theorem dedupAux_find : ∀ (seen : List String) (l : List PrepRow) (r : PrepRow),
    r ∈ dedupKeepFirstAux seen l →
      r.pin ∉ seen ∧ l.find? (fun x => x.pin == r.pin) = some r
  | _, [], r, h => absurd h (List.not_mem_nil r)
  | seen, x :: xs, r, h => by
    by_cases hx : x.pin ∈ seen
    · rw [dedupKeepFirstAux, if_pos hx] at h
      obtain ⟨hseen, hfind⟩ := dedupAux_find seen xs r h
      have hne : (x.pin == r.pin) = false := by
        rw [beq_eq_false_iff_ne]
        intro heq
        exact hseen (heq ▸ hx)
      refine ⟨hseen, ?_⟩
      rw [List.find?_cons, hne]
      exact hfind
    · rw [dedupKeepFirstAux, if_neg hx] at h
      rcases List.mem_cons.mp h with h | h
      · subst h
        exact ⟨hx, by rw [List.find?_cons, beq_self_eq_true]⟩
      · obtain ⟨hseen, hfind⟩ := dedupAux_find (x.pin :: seen) xs r h
        have hnx : r.pin ≠ x.pin := fun he => hseen (he ▸ List.mem_cons_self _ _)
        have hne : (x.pin == r.pin) = false := by
          rw [beq_eq_false_iff_ne]; exact fun he => hnx he.symm
        refine ⟨fun hs => hseen (List.mem_cons_of_mem _ hs), ?_⟩
        rw [List.find?_cons, hne]
        exact hfind

theorem dedupAux_pins_nodup : ∀ (seen : List String) (l : List PrepRow),
    ((dedupKeepFirstAux seen l).map (fun r => r.pin)).Nodup
  | _, [] => List.nodup_nil
  | seen, x :: xs => by
    by_cases hx : x.pin ∈ seen
    · rw [dedupKeepFirstAux, if_pos hx]
      exact dedupAux_pins_nodup seen xs
    · rw [dedupKeepFirstAux, if_neg hx]
      rw [List.map_cons, List.nodup_cons]
      refine ⟨?_, dedupAux_pins_nodup (x.pin :: seen) xs⟩
      intro hmem
      rw [List.mem_map] at hmem
      obtain ⟨r, hr, hpin⟩ := hmem
      exact (dedupAux_find _ _ _ hr).1 (hpin ▸ List.mem_cons_self _ _)

theorem mem_eligibleValid {rows : List PrepRow} {r : PrepRow} (h : r ∈ eligibleValid rows) :
    is11Digits r.pin = true := by
  unfold eligibleValid at h
  rw [List.mem_filter] at h
  have h2 := h.2
  simp only [Bool.and_eq_true] at h2
  exact h2.2

theorem prefilter_is11 {rows : List PrepRow} {r : PrepRow} (h : r ∈ prefilter rows) :
    is11Digits r.pin = true :=
  mem_eligibleValid (mem_of_mem_dedupAux [] (eligibleValid rows) r h)

theorem prefilter_pins_nodup (rows : List PrepRow) :
    ((prefilter rows).map (fun r => r.pin)).Nodup :=
  dedupAux_pins_nodup [] (eligibleValid rows)

theorem prefilter_find {rows : List PrepRow} {r : PrepRow} (h : r ∈ prefilter rows) :
    (eligibleValid rows).find? (fun x => x.pin == r.pin) = some r :=
  (dedupAux_find [] (eligibleValid rows) r h).2

theorem joinPins_nodup (stmt sett : List PrepRow) : (joinPins stmt sett).Nodup := by
  unfold joinPins
  refine List.Nodup.append (prefilter_pins_nodup sett) ((prefilter_pins_nodup stmt).filter _) ?_
  intro p hp hq
  rw [List.mem_filter, decide_eq_true_eq] at hq
  exact hq.2 hp

theorem joinPins_is11 {stmt sett : List PrepRow} {p : String} (h : p ∈ joinPins stmt sett) :
    is11Digits p = true := by
  unfold joinPins at h
  rw [List.mem_append] at h
  rcases h with h | h
  · rw [List.mem_map] at h
    obtain ⟨r, hr, rfl⟩ := h
    exact prefilter_is11 hr
  · rw [List.mem_filter] at h
    rw [List.mem_map] at h
    obtain ⟨⟨r, hr, rfl⟩, _⟩ := h
    exact prefilter_is11 hr

theorem mergedRows_map_pin (stmt sett : List PrepRow) :
    (mergedRows stmt sett).map (fun m => m.pin) = List.insertionSort PinLe (joinPins stmt sett) := by
  unfold mergedRows
  rw [List.map_map]
  exact List.map_id'' (fun p => rfl) _

theorem classOf_mem_valid (pv : Prov) : validClassifications.contains (classOf pv) = true := by
  cases pv <;> rfl

theorem reconcile_eq_map (stmt sett : List PrepRow) :
    reconcile stmt sett = (mergedRows stmt sett).map finalize := by
  unfold reconcile
  apply List.filter_eq_self.mpr
  intro row hrow
  rw [List.mem_map] at hrow
  obtain ⟨m, _, rfl⟩ := hrow
  exact classOf_mem_valid m.prov

theorem reconcile_map_pin (stmt sett : List PrepRow) :
    (reconcile stmt sett).map (fun row => row.pin) = List.insertionSort PinLe (joinPins stmt sett) := by
  rw [reconcile_eq_map, List.map_map]
  exact mergedRows_map_pin stmt sett

theorem finalize_mem_reconcile {stmt sett : List PrepRow} {m : Merged}
    (hm : m ∈ mergedRows stmt sett) : finalize m ∈ reconcile stmt sett := by
  rw [reconcile_eq_map]
  exact List.mem_map_of_mem finalize hm

theorem nearestHalfEven_eq_zero {y : ℚ} (h1 : -(1 / 2) < y) (h2 : y < 1 / 2) :
    nearestHalfEven y = 0 := by
  unfold nearestHalfEven
  rcases le_or_lt 0 y with hy | hy
  · have hf : ⌊y⌋ = 0 := by
      rw [Int.floor_eq_iff]
      constructor
      · exact_mod_cast hy
      · push_cast; linarith
    simp only [hf, Int.cast_zero, sub_zero]
    rw [if_pos h2]
  · have hf : ⌊y⌋ = -1 := by
      rw [Int.floor_eq_iff]
      constructor
      · push_cast; linarith
      · push_cast; linarith
    simp only [hf, Int.cast_neg, Int.cast_one, sub_neg_eq_add]
    rw [if_neg (by linarith), if_pos (by linarith)]
    norm_num

theorem round6_eq_zero_of_tiny {x : ℚ} (h : |x| < 1 / 2000000) : round6 x = 0 := by
  have hb := abs_lt.mp h
  have h1 : -(1 / 2 : ℚ) < x * 1000000 := by nlinarith [hb.1]
  have h2 : x * 1000000 < 1 / 2 := by nlinarith [hb.2]
  unfold round6
  rw [nearestHalfEven_eq_zero h1 h2]
  norm_num

theorem snapTiny_round6 (x : ℚ) : snapTiny (round6 x) = round6 x := by
  unfold snapTiny
  split_ifs with h
  · set n := nearestHalfEven (x * 1000000) with hn
    have habs : |(n : ℚ)| < 1 / 2 := by
      unfold round6 at h
      rw [← hn, abs_div] at h
      have : |(1000000 : ℚ)| = 1000000 := by norm_num
      rw [this] at h
      linarith
    have hzero : n = 0 := by
      by_contra hne
      have hge : (1 : ℤ) ≤ |n| := Int.one_le_abs hne
      have : (1 : ℚ) ≤ |(n : ℚ)| := by
        rw [← Int.cast_abs]
        exact_mod_cast hge
      linarith
    unfold round6
    rw [← hn, hzero]
    norm_num
  · rfl

/-! Claim theorems. -/

/-- C1: for every merged row of `reconcile` classified Present in Both
whose two amounts are available, FinalReconcileStatus is Reconciled
exactly when the absolute unrounded variance (settlement AmountUSD minus
statement AmountUSD) is at most 0.01, and Amount Mismatch otherwise; the
row appears in the returned report. -/
theorem C1_presentInBoth_tolerance (stmt sett : List PrepRow) (m : Merged)
    (hm : m ∈ mergedRows stmt sett) (hprov : m.prov = Prov.both) (a b : ℚ)
    (ha : m.settAmt = some a) (hb : m.stmtAmt = some b) :
    ((finalize m).finalStatus = "Reconciled" ↔ |a - b| ≤ 1 / 100)
    ∧ (¬ |a - b| ≤ 1 / 100 → (finalize m).finalStatus = "Amount Mismatch")
    ∧ finalize m ∈ reconcile stmt sett := by
  have hstat : (finalize m).finalStatus
      = if |a - b| ≤ 1 / 100 then "Reconciled" else "Amount Mismatch" := by
    simp [finalize, finalStatusOf, hprov, ha, hb]
  refine ⟨⟨fun h => ?_, fun h => ?_⟩, fun h => ?_, finalize_mem_reconcile hm⟩
  · by_contra hle
    rw [hstat, if_neg hle] at h
    exact absurd h (by decide)
  · rw [hstat, if_pos h]
  · rw [hstat, if_neg h]

/-- Concrete statement frame for the C1 witness. -/
def c1Stmt : List PrepRow :=
  [{ pin := "12345678901", amount := some 100, status := "Should Reconcile" }]

/-- Concrete settlement frame for the C1 witness. -/
def c1Sett : List PrepRow :=
  [{ pin := "12345678901", amount := some 100, status := "Should Reconcile" }]

/-- Concrete merged row produced by the C1 witness frames. -/
def c1Merged : Merged :=
  { pin := "12345678901", settAmt := some 100, stmtAmt := some 100, prov := Prov.both }

/-- Witness for C1 at a concrete Present-in-Both row with equal amounts. -/
theorem C1_presentInBoth_tolerance_witness :
    ((finalize c1Merged).finalStatus = "Reconciled" ↔ |(100 : ℚ) - 100| ≤ 1 / 100)
    ∧ (¬ |(100 : ℚ) - 100| ≤ 1 / 100 → (finalize c1Merged).finalStatus = "Amount Mismatch")
    ∧ finalize c1Merged ∈ reconcile c1Stmt c1Sett :=
  C1_presentInBoth_tolerance c1Stmt c1Sett c1Merged (by decide) rfl 100 100 rfl rfl

/-- C4 (amended): the report rows returned by `reconcile` appear in
ascending lexicographic order of PartnerPin — the outer join sorts the
join keys — not in settlement-first source order. -/
theorem C4_report_sorted_by_pin (stmt sett : List PrepRow) :
    ((reconcile stmt sett).map (fun row => row.pin)).Sorted PinLe := by
  rw [reconcile_map_pin]
  exact List.sorted_insertionSort PinLe (joinPins stmt sett)

/-- Concrete settlement frame for the C4 counterexample. -/
def c4Sett : List PrepRow :=
  [{ pin := "22222222222", amount := some 1, status := "Should Reconcile" }]

/-- Concrete statement frame for the C4 counterexample. -/
def c4Stmt : List PrepRow :=
  [{ pin := "11111111111", amount := some 2, status := "Should Reconcile" }]

/-- Counterexample to C4 as stated: with one settlement pin 22222222222
and one statement-only pin 11111111111, the report emits the
statement-only pin first (the join keys come out sorted), not the
settlement-side pin first as the claim requires. -/
theorem C4_claim_counterexample :
    (reconcile c4Stmt c4Sett).map (fun row => row.pin) = ["11111111111", "22222222222"]
    ∧ (reconcile c4Stmt c4Sett).map (fun row => row.pin) ≠ ["22222222222", "11111111111"]
    ∧ c4Sett.map (fun r => r.pin) = ["22222222222"]
    ∧ c4Stmt.map (fun r => r.pin) = ["11111111111"] :=
  ⟨by decide, by decide, rfl, rfl⟩

/-- C5: every report row's PartnerPin is exactly 11 decimal digits, no two
report rows share a PartnerPin, and each side's deduplication keeps, for
every surviving row, the first occurrence of its pin among the side's
eligible re-validated rows in source order. -/
theorem C5_pins_valid_unique (stmt sett : List PrepRow) :
    (∀ out ∈ reconcile stmt sett, is11Digits out.pin = true)
    ∧ ((reconcile stmt sett).map (fun row => row.pin)).Nodup
    ∧ (∀ r ∈ prefilter stmt, (eligibleValid stmt).find? (fun x => x.pin == r.pin) = some r)
    ∧ (∀ r ∈ prefilter sett, (eligibleValid sett).find? (fun x => x.pin == r.pin) = some r) := by
  refine ⟨?_, ?_, fun r h => prefilter_find h, fun r h => prefilter_find h⟩
  · intro out hout
    have hmap : out.pin ∈ (reconcile stmt sett).map (fun row => row.pin) :=
      List.mem_map_of_mem _ hout
    rw [reconcile_map_pin] at hmap
    exact joinPins_is11 (((List.perm_insertionSort PinLe _).mem_iff).mp hmap)
  · rw [reconcile_map_pin]
    exact ((List.perm_insertionSort PinLe _).nodup_iff).mpr (joinPins_nodup stmt sett)

/-- Concrete statement frame for the C5 witness: a duplicated statement
pin whose first occurrence must be the one kept. -/
def c5Stmt : List PrepRow :=
  [{ pin := "33333333333", amount := some 5, status := "Should Reconcile" },
   { pin := "33333333333", amount := some 7, status := "Should Reconcile" }]

/-- Concrete settlement frame for the C5 witness. -/
def c5Sett : List PrepRow :=
  [{ pin := "44444444444", amount := some 5, status := "Should Reconcile" }]

/-- Report row produced for the statement-only pin of the C5 witness. -/
def c5Out : ReportRow :=
  { pin := "33333333333",
    classification := "Not Present in the Settlement File but are present in the Statement File",
    finalStatus := "Missing in Settlement", amountVariance := none }

/-- First statement row of the C5 witness, the occurrence kept by
deduplication. -/
def c5First : PrepRow :=
  { pin := "33333333333", amount := some 5, status := "Should Reconcile" }

/-- Witness for C5 on concrete frames with a duplicated statement pin. -/
theorem C5_pins_valid_unique_witness :
    is11Digits c5Out.pin = true
    ∧ (eligibleValid c5Stmt).find? (fun x => x.pin == c5First.pin) = some c5First :=
  ⟨(C5_pins_valid_unique c5Stmt c5Sett).1 c5Out (by decide),
   (C5_pins_valid_unique c5Stmt c5Sett).2.2.1 c5First (by decide)⟩

/-- C6: classification is derived from the join provenance (both sides →
Present in Both, settlement-only → left-only label, statement-only →
right-only label), and the one-sided classifications force the statuses
Missing in Statement and Missing in Settlement respectively. -/
theorem C6_missing_side_status (stmt sett : List PrepRow) (m : Merged)
    (_hm : m ∈ mergedRows stmt sett) :
    ((finalize m).classification
        = "Present in the Settlement File but not in the Partner Statement File" →
      (finalize m).finalStatus = "Missing in Statement")
    ∧ ((finalize m).classification
        = "Not Present in the Settlement File but are present in the Statement File" →
      (finalize m).finalStatus = "Missing in Settlement")
    ∧ (m.prov = Prov.both → (finalize m).classification = "Present in Both")
    ∧ (m.prov = Prov.leftOnly → (finalize m).classification
        = "Present in the Settlement File but not in the Partner Statement File")
    ∧ (m.prov = Prov.rightOnly → (finalize m).classification
        = "Not Present in the Settlement File but are present in the Statement File") := by
  cases hp : m.prov <;>
    refine ⟨?_, ?_, ?_, ?_, ?_⟩ <;>
    simp [finalize, classOf, finalStatusOf, hp]

/-- Concrete settlement frame for the C6 witness. -/
def c6Sett : List PrepRow :=
  [{ pin := "55555555555", amount := some 3, status := "Should Reconcile" }]

/-- Merged row of the C6 witness: a settlement-only pin. -/
def c6Merged : Merged :=
  { pin := "55555555555", settAmt := some 3, stmtAmt := none, prov := Prov.leftOnly }

/-- Witness for C6 at a concrete settlement-only row. -/
theorem C6_missing_side_status_witness :
    (finalize c6Merged).classification
      = "Present in the Settlement File but not in the Partner Statement File"
    ∧ (finalize c6Merged).finalStatus = "Missing in Statement" :=
  ⟨(C6_missing_side_status [] c6Sett c6Merged (by decide)).2.2.2.1 rfl,
   (C6_missing_side_status [] c6Sett c6Merged (by decide)).1 rfl⟩

/-- C9: a Present-in-Both row with either side's amount missing gets a
missing AmountVariance and FinalReconcileStatus Amount Mismatch (never
Reconciled), and the row still appears in the returned report. -/
theorem C9_missing_amount_mismatch (stmt sett : List PrepRow) (m : Merged)
    (hm : m ∈ mergedRows stmt sett) (hprov : m.prov = Prov.both)
    (hmiss : m.settAmt = none ∨ m.stmtAmt = none) :
    (finalize m).amountVariance = none
    ∧ (finalize m).finalStatus = "Amount Mismatch"
    ∧ finalize m ∈ reconcile stmt sett := by
  refine ⟨?_, ?_, finalize_mem_reconcile hm⟩
  · rcases hmiss with h | h
    · simp [finalize, varianceOf, hprov, h]
    · cases hs : m.settAmt <;> simp [finalize, varianceOf, hprov, h, hs]
  · rcases hmiss with h | h
    · simp [finalize, finalStatusOf, hprov, h]
    · cases hs : m.settAmt <;> simp [finalize, finalStatusOf, hprov, h, hs]

/-- Concrete statement frame for the C9 witness: its single row has an
unparsable amount. -/
def c9Stmt : List PrepRow :=
  [{ pin := "66666666666", amount := none, status := "Should Reconcile" }]

/-- Concrete settlement frame for the C9 witness. -/
def c9Sett : List PrepRow :=
  [{ pin := "66666666666", amount := some 5, status := "Should Reconcile" }]

/-- Merged row of the C9 witness: present on both sides, statement amount
missing. -/
def c9Merged : Merged :=
  { pin := "66666666666", settAmt := some 5, stmtAmt := none, prov := Prov.both }

/-- Witness for C9 at a concrete both-sides row with a missing statement
amount. -/
theorem C9_missing_amount_mismatch_witness :
    (finalize c9Merged).amountVariance = none
    ∧ (finalize c9Merged).finalStatus = "Amount Mismatch"
    ∧ finalize c9Merged ∈ reconcile c9Stmt c9Sett :=
  C9_missing_amount_mismatch c9Stmt c9Sett c9Merged (by decide) rfl (Or.inr rfl)

/-- C2: the statement-side identifier extractor evaluates, per row, the
ordered fallback chain end-anchored 11-digit run, then XXP followed by 8
digits synthesized as 777 plus those digits, then a 777-led 11-digit run
anywhere, then any 11-digit run anywhere, each later step applying only
when the earlier steps failed; on the spec's examples it yields
77712345678 and 77798765432. -/
theorem C2_extraction_chain :
    (∀ d p, extractEnd11 (trimStr d) = some p → extractStatementPin d = some p)
    ∧ (∀ d ds, extractEnd11 (trimStr d) = none → extractXXP (trimStr d) = some ds →
        extractStatementPin d = some ("777" ++ ds))
    ∧ (∀ d p, extractEnd11 (trimStr d) = none → extractXXP (trimStr d) = none →
        extract777 (trimStr d) = some p → extractStatementPin d = some p)
    ∧ (∀ d, extractEnd11 (trimStr d) = none → extractXXP (trimStr d) = none →
        extract777 (trimStr d) = none → extractStatementPin d = extractAny11 (trimStr d))
    ∧ extractStatementPin "... transfer ref 77712345678" = some "77712345678"
    ∧ extractStatementPin "XXP98765432 note" = some "77798765432" := by
  refine ⟨?_, ?_, ?_, ?_, by decide, by decide⟩
  · intro d p h
    simp [extractStatementPin, h]
  · intro d ds h1 h2
    simp [extractStatementPin, h1, h2]
  · intro d p h1 h2 h3
    simp [extractStatementPin, h1, h2, h3]
  · intro d h1 h2 h3
    simp [extractStatementPin, h1, h2, h3]

/-- Witness for C2: one concrete input per step of the fallback chain. -/
theorem C2_extraction_chain_witness :
    extractStatementPin "x 12345678901" = some "12345678901"
    ∧ extractStatementPin "XXP11223344 x" = some ("777" ++ "11223344")
    ∧ extractStatementPin "a 77712345678 b" = some "77712345678"
    ∧ extractStatementPin "a 10987654321 b" = extractAny11 (trimStr "a 10987654321 b") :=
  ⟨C2_extraction_chain.1 "x 12345678901" "12345678901" (by decide),
   C2_extraction_chain.2.1 "XXP11223344 x" "11223344" (by decide) (by decide),
   C2_extraction_chain.2.2.1 "a 77712345678 b" "77712345678" (by decide) (by decide) (by decide),
   C2_extraction_chain.2.2.2.1 "a 10987654321 b" (by decide) (by decide) (by decide)⟩

/-- C3: statement-side eligibility tagging — tagging only ever produces
the two statuses and defaults to Should Not Reconcile (in particular on
rows with no extracted pin); a dollar-received row is always Should Not
Reconcile regardless of the other conditions; otherwise a row with a
valid pin is Should Reconcile exactly when its pin is not in the
duplicate set or the row is tagged cancel (so non-cancel duplicates stay
Should Not Reconcile); and every row of the preparer's output is tagged
this way against the global duplicate set. -/
theorem C3_statement_eligibility (dup : List String) (r : StmtRaw) :
    (statementStatus dup r none = "Should Not Reconcile")
    ∧ (∀ pin, isDollarReceived r = true → statementStatus dup r pin = "Should Not Reconcile")
    ∧ (∀ p, isDollarReceived r = false →
        (statementStatus dup r (some p) = "Should Reconcile" ↔ (p ∉ dup ∨ isCancelStmt r = true)))
    ∧ (∀ pin, statementStatus dup r pin = "Should Reconcile"
        ∨ statementStatus dup r pin = "Should Not Reconcile")
    ∧ (∀ rows : List StmtRaw, ∀ out ∈ process_statement rows,
        ∃ s ∈ rows, out.status
          = statementStatus (statementDupPins rows) s (extractStatementPin s.desc)) := by
  refine ⟨rfl, ?_, ?_, ?_, ?_⟩
  · intro pin hd
    cases pin with
    | none => rfl
    | some p => simp [statementStatus, hd]
  · intro p hd
    constructor
    · intro h
      by_cases hp : p ∈ dup
      · by_cases hc : isCancelStmt r
        · exact Or.inr hc
        · exfalso
          rw [statementStatus] at h
          rw [if_neg (by simp [hd]), if_pos hp, if_neg (by simp [hc])] at h
          exact absurd h (by decide)
      · exact Or.inl hp
    · rintro (hp | hc)
      · simp [statementStatus, hd, hp]
      · by_cases hp : p ∈ dup
        · simp [statementStatus, hd, hp, hc]
        · simp [statementStatus, hd, hp]
  · intro pin
    cases pin with
    | none => exact Or.inr rfl
    | some p =>
      rw [statementStatus]
      split_ifs <;> simp
  · intro rows out hout
    rw [process_statement, List.mem_filterMap] at hout
    obtain ⟨s, hs, hf⟩ := hout
    refine ⟨s, hs, ?_⟩
    rw [Option.map_eq_some'] at hf
    obtain ⟨p, hp, hrow⟩ := hf
    rw [← hrow, hp]

/-- Statement row for the C3 witness tagged dollar received. -/
def c3Dollar : StmtRaw := { action := " Dollar Received ", desc := "d", amountCell := "1" }

/-- Statement row for the C3 witness tagged cancel. -/
def c3Cancel : StmtRaw := { action := "Cancel", desc := "d", amountCell := "1" }

/-- Statement table for the C3 witness: one ordinary row. -/
def c3Rows : List StmtRaw :=
  [{ action := "buy", desc := "text 10101010101", amountCell := "7" }]

/-- Output row the statement preparer produces for `c3Rows`. -/
def c3Out : PrepRow :=
  { pin := "10101010101", amount := some 7, status := "Should Reconcile" }

/-- Witness for C3 on concrete rows: dollar-received exclusion, the
cancel-duplicate rule, and the preparer tie-in. -/
theorem C3_statement_eligibility_witness :
    statementStatus ["10101010101"] c3Dollar (some "10101010101") = "Should Not Reconcile"
    ∧ (statementStatus ["10101010101"] c3Cancel (some "10101010101") = "Should Reconcile"
        ↔ ("10101010101" ∉ ["10101010101"] ∨ isCancelStmt c3Cancel = true))
    ∧ (∃ s ∈ c3Rows, c3Out.status
        = statementStatus (statementDupPins c3Rows) s (extractStatementPin s.desc)) :=
  ⟨(C3_statement_eligibility ["10101010101"] c3Dollar).2.1 (some "10101010101") (by decide),
   (C3_statement_eligibility ["10101010101"] c3Cancel).2.2.1 "10101010101" (by decide),
   (C3_statement_eligibility [] c3Dollar).2.2.2.2 c3Rows c3Out (by decide)⟩

/-- C7: the settlement amount is payout divided by rate; a zero resolved
rate, a missing rate or a missing payout yields a missing amount; every
computed amount arises from a division by a nonzero rate (the division is
never performed against zero); and every processed settlement row's
amount is produced this way. -/
theorem C7_settlement_amount (pc rc : String) :
    (∀ p rt, toNumber pc = some p → toNumber rc = some rt → rt ≠ 0 →
        settAmount pc rc = some (p / rt))
    ∧ (toNumber rc = some 0 → settAmount pc rc = none)
    ∧ (toNumber rc = none → settAmount pc rc = none)
    ∧ (toNumber pc = none → settAmount pc rc = none)
    ∧ (∀ v, settAmount pc rc = some v →
        ∃ p rt, toNumber pc = some p ∧ toNumber rc = some rt ∧ rt ≠ 0 ∧ v = p / rt)
    ∧ (∀ rows : List SettRaw, ∀ out ∈ process_settlement rows,
        ∃ s ∈ rows, out.amount = settAmount s.payoutCell s.rateCell) := by
  refine ⟨?_, ?_, ?_, ?_, ?_, ?_⟩
  · intro p rt hp hrt h0
    simp [settAmount, hp, hrt, h0]
  · intro h
    cases hp : toNumber pc <;> simp [settAmount, hp, h]
  · intro h
    cases hp : toNumber pc <;> simp [settAmount, hp, h]
  · intro h
    simp [settAmount, h]
  · intro v hv
    rw [settAmount] at hv
    cases hp : toNumber pc with
    | none => rw [hp] at hv; exact absurd hv (by simp)
    | some p =>
      cases hrt : toNumber rc with
      | none => rw [hp, hrt] at hv; exact absurd hv (by simp)
      | some rt =>
        rw [hp, hrt] at hv
        have hv2 : (if rt = 0 then none else some (p / rt)) = some v := hv
        by_cases h0 : rt = 0
        · rw [if_pos h0] at hv2
          exact absurd hv2 (by simp)
        · rw [if_neg h0] at hv2
          exact ⟨p, rt, rfl, rfl, h0, (Option.some_inj.mp hv2).symm⟩
  · intro rows out hout
    rw [process_settlement, List.mem_filterMap] at hout
    obtain ⟨s, hs, hf⟩ := hout
    refine ⟨s, hs, ?_⟩
    rw [Option.map_eq_some'] at hf
    obtain ⟨p, _, hrow⟩ := hf
    rw [← hrow]

/-- Witness for C7: a real division, a zero rate and an unparsable rate. -/
theorem C7_settlement_amount_witness :
    settAmount "100" "4" = some (100 / 4)
    ∧ settAmount "100" "0" = none
    ∧ settAmount "100" "x" = none :=
  ⟨(C7_settlement_amount "100" "4").1 100 4 rfl rfl (by norm_num),
   (C7_settlement_amount "100" "0").2.1 rfl,
   (C7_settlement_amount "100" "x").2.2.1 rfl⟩

/-- C8: for a Present-in-Both merged row with both amounts available, the
reported AmountVariance is exactly the difference settlement minus
statement rounded to 6 decimal places (the snap-to-zero mask never alters
a rounded value), and a raw variance of magnitude below 5e-7 is reported
as exactly 0. -/
theorem C8_variance_rounding (stmt sett : List PrepRow) (m : Merged)
    (_hm : m ∈ mergedRows stmt sett) (hprov : m.prov = Prov.both) (a b : ℚ)
    (ha : m.settAmt = some a) (hb : m.stmtAmt = some b) :
    (finalize m).amountVariance = some (round6 (a - b))
    ∧ (|a - b| < 1 / 2000000 → (finalize m).amountVariance = some 0) := by
  have hv : (finalize m).amountVariance = some (snapTiny (round6 (a - b))) := by
    simp [finalize, varianceOf, hprov, ha, hb]
  constructor
  · rw [hv, snapTiny_round6]
  · intro h
    rw [hv, snapTiny_round6, round6_eq_zero_of_tiny h]

/-- Statement frame for the C8 witness. -/
def c8Stmt : List PrepRow :=
  [{ pin := "77712345678", amount := some 100, status := "Should Reconcile" }]

/-- Settlement frame for the C8 witness. -/
def c8Sett : List PrepRow :=
  [{ pin := "77712345678", amount := some 100, status := "Should Reconcile" }]

/-- Merged row of the C8 witness. -/
def c8Merged : Merged :=
  { pin := "77712345678", settAmt := some 100, stmtAmt := some 100, prov := Prov.both }

/-- Witness for C8 at a concrete Present-in-Both row. -/
theorem C8_variance_rounding_witness :
    (finalize c8Merged).amountVariance = some (round6 ((100 : ℚ) - 100))
    ∧ (|(100 : ℚ) - 100| < 1 / 2000000 → (finalize c8Merged).amountVariance = some 0) :=
  C8_variance_rounding c8Stmt c8Sett c8Merged (by decide) rfl 100 100 rfl rfl

/-- C10: the settlement-side cancel comparison lowercases but does not
strip, so a duplicated-pin settlement row whose 6th-column status equals
cancel only after trimming stays Should Not Reconcile, while the
statement preparer strips before comparing, so the analogous
duplicated-pin, non-dollar statement row becomes Should Reconcile; the
value " cancel " separates the two comparisons. -/
theorem C10_cancel_trim_asymmetry (dup : List String) (rSett : SettRaw) (rStmt : StmtRaw) :
    (∀ p, p ∈ dup → lowerStr rSett.statusCell ≠ "cancel" →
        settlementStatus dup rSett p = "Should Not Reconcile")
    ∧ (∀ p, p ∈ dup → isDollarReceived rStmt = false → isCancelStmt rStmt = true →
        statementStatus dup rStmt (some p) = "Should Reconcile")
    ∧ trimStr (lowerStr " cancel ") = "cancel"
    ∧ lowerStr " cancel " ≠ "cancel" := by
  refine ⟨?_, ?_, by decide, by decide⟩
  · intro p hp hne
    have hc : isCancelSett rSett = false := by
      rw [isCancelSett, beq_eq_false_iff_ne]
      exact hne
    simp [settlementStatus, hp, hc]
  · intro p hp hd hc
    simp [statementStatus, hd, hp, hc]

/-- Settlement row for the C10 witness: status " cancel " with spaces. -/
def c10Sett : SettRaw :=
  { pinCell := "98765432109", statusCell := " cancel ", payoutCell := "10", rateCell := "2" }

/-- Statement row for the C10 witness: action " cancel " with spaces. -/
def c10Stmt : StmtRaw := { action := " cancel ", desc := "d", amountCell := "1" }

/-- Witness for C10: the same duplicated pin and the same padded status
text give Should Not Reconcile on the settlement side and Should
Reconcile on the statement side. -/
theorem C10_cancel_trim_asymmetry_witness :
    settlementStatus ["98765432109"] c10Sett "98765432109" = "Should Not Reconcile"
    ∧ statementStatus ["98765432109"] c10Stmt (some "98765432109") = "Should Reconcile" :=
  ⟨(C10_cancel_trim_asymmetry ["98765432109"] c10Sett c10Stmt).1 "98765432109"
      (by decide) (by decide),
   (C10_cancel_trim_asymmetry ["98765432109"] c10Sett c10Stmt).2.1 "98765432109"
      (by decide) (by decide) (by decide)⟩

end Reconciliation
